import Mathlib

/-!
# Historian sampling-and-write pipeline — verification development

Shallow embedding of the core of `app/historian_ui.py` and of the freshness
classification in `app/grafana_view_wizard.py`, with proofs of the spec's
testable properties.

Machine time is modelled in whole seconds (`Nat`); scalar readings are
modelled as rationals (`ℚ`), which is faithful for everything proved here
(no property depends on float rounding).
-/

namespace Historian

/-- Constant `WRITE_BATCH_SIZE` from `historian_ui.py`. -/
def WRITE_BATCH_SIZE : Nat := 5000

/-- Constant `MAX_CACHE_AGE_SECONDS` from `historian_ui.py`. -/
def MAX_CACHE_AGE_SECONDS : Nat := 30

/-- Constant `MAX_PENDING_POINTS` from `historian_ui.py`. -/
def MAX_PENDING_POINTS : Nat := 120000

/-- Constant `LOOP_CACHE_MAX_AGE_SECONDS` from `historian_ui.py`. -/
def LOOP_CACHE_MAX_AGE_SECONDS : Nat := 300

/-- Constant `LOOP_MAX_BACKFILL_SECONDS` from `historian_ui.py`. -/
def LOOP_MAX_BACKFILL_SECONDS : Nat := 10

/-- Constant `RAW_LOOP_MEASUREMENT` from `historian_ui.py`. -/
def RAW_LOOP_MEASUREMENT : String := "pid_loop_hf_raw"

/-- A value as delivered by the OPC UA read: a boolean, a number, or
something non-numeric (carried with its printed form). -/
inductive OpcValue where
  | vBool (b : Bool)
  | vNum (q : ℚ)
  | vOther (repr : String)
deriving DecidableEq

/-- Function `safe_float`: booleans and numbers cast to float, anything else raises
`ValueError` — modelled as `Except`. -/
def safe_float : OpcValue → Except String ℚ
  | .vBool b => .ok (if b then 1 else 0)
  | .vNum q => .ok q
  | .vOther r => .error ("Non-numeric value: " ++ r)

/-- One entry of `raw_value_cache` / `loop_value_cache`: the last good value
and the whole-second time it was observed. -/
structure CacheEntry where
  value : ℚ
  ts : Nat
deriving DecidableEq

/-- A value cache: node id to entry (a Python dict keyed by node id). -/
def Cache : Type := String → Option CacheEntry

/-- Dict assignment `cache[nodeid] = entry`. -/
def Cache.put (c : Cache) (nodeid : String) (e : CacheEntry) : Cache :=
  fun k => if k = nodeid then some e else c k

/-- The 4-tuple returned by `read_numeric_with_cache`:
`(value, from_cache, cache_age, error)`. -/
structure ReadResult where
  value : Option ℚ
  from_cache : Bool
  cache_age : Option Nat
  error : String
deriving DecidableEq

/-- The body of the `try` block of `read_numeric_with_cache`:
`safe_float(client.get_node(nodeid).read_value())`.  `live` models
`client.get_node(nodeid).read_value()`, which either delivers an `OpcValue`
or raises (`.error`). -/
def live_attempt (live : Except String OpcValue) : Except String ℚ :=
  match live with
  | .error e => .error e
  | .ok v => safe_float v

/-- Function `read_numeric_with_cache` from `historian_ui.py`.  On a successful live
read the value is cached and returned fresh; on any exception the cache is
consulted with the caller-supplied maximum age; an absent or over-age entry
yields `value = none` together with the error text.  Returns the result
4-tuple and the cache after the call. -/
def read_numeric_with_cache (live : Except String OpcValue) (nodeid : String)
    (cache : Cache) (now : Nat) (max_cache_age_seconds : Nat) :
    ReadResult × Cache :=
  match live_attempt live with
  | .ok value =>
      (⟨some value, false, some 0, ""⟩, cache.put nodeid ⟨value, now⟩)
  | .error exc =>
      match cache nodeid with
      | some cached =>
          let age := now - cached.ts
          if age ≤ max_cache_age_seconds then
            (⟨some cached.value, true, some age, exc⟩, cache)
          else
            (⟨none, false, none, exc⟩, cache)
      | none => (⟨none, false, none, exc⟩, cache)

/-!
## BatchWriter — `write_pending_points`

The sink (`influx.write_points`) is modelled by a predicate on the write
attempt number: `sink i = true` means the `i`-th write call in this flush
succeeds, and `err i` is the exception text when it fails.  The function
returns `(written_total, last_error, remaining_queue)`; in the source the
queue is mutated in place, so the remaining queue is returned explicitly.
-/

/-- Function `write_pending_points` from `historian_ui.py`, starting at write attempt
number `attempt`.  While the queue is nonempty, take the first
`WRITE_BATCH_SIZE` points, try one write; on success delete the batch from
the front and continue, on failure record the error and stop. -/
def write_pending_points (sink : Nat → Bool) (err : Nat → String)
    (attempt : Nat) (pending : List α) : Nat × String × List α :=
  match pending with
  | [] => (0, "", [])
  | p :: ps =>
      let batch := (p :: ps).take WRITE_BATCH_SIZE
      if sink attempt then
        let rest := (p :: ps).drop WRITE_BATCH_SIZE
        let r := write_pending_points sink err (attempt + 1) rest
        (batch.length + r.1, r.2.1, r.2.2)
      else
        (0, err attempt, p :: ps)
termination_by pending.length
decreasing_by
  simp only [List.length_drop, List.length_cons, WRITE_BATCH_SIZE]
  omega

/-!
## PointBuffer trim

Both sampling loops run, after each flush,
`if len(pending_points) > MAX_PENDING_POINTS:
     del pending_points[: len(pending_points) - MAX_PENDING_POINTS]`.
-/

/-- The pending-point trim step shared by `raw_logging_loop` and
`loop_logging_loop`. -/
def trim_pending (pending : List α) : List α :=
  if pending.length > MAX_PENDING_POINTS then
    pending.drop (pending.length - MAX_PENDING_POINTS)
  else pending

/-!
## FreshnessClassifier — `api_influx_tags_catalog` in `grafana_view_wizard.py`
-/

/-- The qualitative freshness states used by the tag catalog. -/
inductive Freshness where
  | unknown
  | live
  | recent
  | stale
  | cached
deriving DecidableEq

/-- The age-to-state classification repeated in both branches of
`api_influx_tags_catalog`: `None → unknown`, `age ≤ 5 → live`,
`age ≤ 30 → recent`, otherwise `stale`.  Ages are `Int` because the code
computes `int((now - ts).total_seconds())`, which can be negative for a
future timestamp. -/
def classify : Option Int → Freshness
  | none => .unknown
  | some age =>
      if age ≤ 5 then .live
      else if age ≤ 30 then .recent
      else .stale

/-- The fallback branch's cached override:
`if int(row_map.get("from_cache") or 0) == 1 and state != "stale":
     state = "cached"`.
`from_cache` is the field read from the last row, `None` when absent. -/
def apply_cached_override (from_cache : Option Int) (state : Freshness) :
    Freshness :=
  if (from_cache.getD 0 = 1) ∧ state ≠ .stale then .cached else state

/-- Full freshness state of one catalog item in the direct-Influx branch:
classify the age, then apply the cached override. -/
def catalog_state (from_cache : Option Int) (age : Option Int) : Freshness :=
  apply_cached_override from_cache (classify age)

/-!
## Loop run-state — `api_raw_logging_start/stop`, `api_loop_logging_start/stop`

Each loop kind has a run flag (`*_logger_running`) and background threads,
the flag touched only under that kind's mutex.  `start` spawns a thread
only when the flag is false; the stop handler only clears the flag — a
spawned thread keeps looping while the flag is true and exits only when it
next observes the flag false at the top of its cycle (`if not
*_logger_running: break`).  `active_tasks` counts the threads that have not
yet exited; a thread's flag observation is modelled as an explicit
scheduler event (`LoggerOp.check`), since it happens asynchronously, up to
one poll interval after a stop.
-/

/-- Run state of one loop kind: the `*_logger_running` flag and the number
of spawned background threads that have not yet exited. -/
structure LoggerState where
  running : Bool
  active_tasks : Nat
deriving DecidableEq

/-- Module start-up: flag false, no thread. -/
def LoggerState.init : LoggerState := ⟨false, 0⟩

/-- Shared shape of `api_raw_logging_start` and `api_loop_logging_start`
(the two handlers differ only in their message strings): under the mutex,
if the flag is already true return the status message and do nothing else;
otherwise set the flag and spawn the logging thread. -/
def api_logging_start (msg_already msg_started : String) (st : LoggerState) :
    LoggerState × String :=
  if st.running then (st, msg_already)
  else (⟨true, st.active_tasks + 1⟩, msg_started)

/-- Handler `api_raw_logging_start` with its exact messages. -/
def api_raw_logging_start : LoggerState → LoggerState × String :=
  api_logging_start "Raw tag logging already running." "Raw tag logging started."

/-- Handler `api_loop_logging_start` with its exact messages. -/
def api_loop_logging_start : LoggerState → LoggerState × String :=
  api_logging_start "Loop logging already running." "Loop logging started."

/-- Shared shape of `api_raw_logging_stop` and `api_loop_logging_stop`:
clear the flag and nothing else — the handler does not touch the thread,
so the number of live tasks is unchanged; each live thread exits on its
own when it next observes the cleared flag. -/
def api_logging_stop (msg_stopped : String) (st : LoggerState) :
    LoggerState × String :=
  (⟨false, st.active_tasks⟩, msg_stopped)

/-- One event of a loop kind's lifecycle: a `start` call, a `stop` call, or
one live thread reaching the flag observation at the top of its cycle. -/
inductive LoggerOp where
  | start
  | stop
  | check
deriving DecidableEq

/-- Effect of one event on the run state.  The message strings do not
affect the state transition.  A `check` with the flag true lets the thread
continue (no change); with the flag false the thread breaks out of its
loop, so one live task goes away (no-op when no thread is live). -/
def logger_step : LoggerOp → LoggerState → LoggerState
  | .start, st => (api_logging_start "" "" st).1
  | .stop, st => (api_logging_stop "" st).1
  | .check, st => if st.running then st else ⟨false, st.active_tasks - 1⟩

/-- A whole sequence of events, applied left to right. -/
def run_logger_ops : List LoggerOp → LoggerState → LoggerState
  | [], st => st
  | op :: rest, st => run_logger_ops rest (logger_step op st)

/-- Event sequences in which every stop's cooperative exit lands before
anything else happens: each `stop` is immediately followed by the stopped
thread's flag observation. -/
inductive Landed : List LoggerOp → Prop where
  | nil : Landed []
  | start {l : List LoggerOp} : Landed l → Landed (.start :: l)
  | check {l : List LoggerOp} : Landed l → Landed (.check :: l)
  | stop {l : List LoggerOp} : Landed l → Landed (.stop :: .check :: l)

/-!
## SamplingLoop — loop/PID variant (`loop_logging_loop`)

One cycle of the loop body is embedded as a function of the current state
(`next_tick`), the observed whole-second wall time (`now_sec`), the loop
assignments, and a read function abstracting
`read_numeric_with_cache(client, nodeid, loop_value_cache, 300)` for this
cycle (the three sub-reads hit distinct node ids, so the per-cycle cache
threading does not affect the emitted points).
-/

/-- One configured loop/PID assignment, after the `str(...).strip()`
normalisation the code applies to each field. -/
structure LoopAssignment where
  loop_id : String
  machine_id : String
  pv_nodeid : String
  sp_nodeid : String
  co_nodeid : String
deriving DecidableEq

/-- One Influx point as built by the sampling loops: measurement, tags,
integer-second timestamp, numeric fields. -/
structure Point where
  measurement : String
  tags : List (String × String)
  time : Nat
  fields : List (String × ℚ)
deriving DecidableEq

/-- Field lookup on a point (for stating properties about single fields). -/
def Point.field (p : Point) (name : String) : Option ℚ :=
  (p.fields.find? (fun kv => kv.1 = name)).map (·.2)

/-- The 0/1 diagnostic encoding used for boolean fields. -/
def bool_field (b : Bool) : ℚ := if b then 1 else 0

/-- Points emitted for one loop assignment at one cycle of
`loop_logging_loop`: skip the loop when any id is empty; do the three
sub-reads; skip when any of them yields no value; otherwise emit one point
per tick timestamp, all carrying the same field values, with
`tick_backfill = 1` exactly on timestamps strictly before `now_sec`. -/
def points_for_loop (readFn : String → ReadResult) (loop : LoopAssignment)
    (tick_timestamps : List Nat) (now_sec : Nat) : List Point :=
  if loop.loop_id = "" ∨ loop.pv_nodeid = "" ∨ loop.sp_nodeid = "" ∨
      loop.co_nodeid = "" then []
  else
    let machine_id := if loop.machine_id = "" then "Kepware" else loop.machine_id
    let pv := readFn loop.pv_nodeid
    let sp := readFn loop.sp_nodeid
    let co := readFn loop.co_nodeid
    match pv.value, sp.value, co.value with
    | some pv_value, some sp_value, some co_value =>
        tick_timestamps.map (fun ts =>
          { measurement := RAW_LOOP_MEASUREMENT
            tags := [("loop_id", loop.loop_id), ("machine_id", machine_id)]
            time := ts
            fields :=
              [("PV", pv_value), ("SP", sp_value), ("CO", co_value),
               ("PV_from_cache", bool_field pv.from_cache),
               ("SP_from_cache", bool_field sp.from_cache),
               ("CO_from_cache", bool_field co.from_cache),
               ("PV_cache_age_s", (pv.cache_age.getD 0 : Nat)),
               ("SP_cache_age_s", (sp.cache_age.getD 0 : Nat)),
               ("CO_cache_age_s", (co.cache_age.getD 0 : Nat)),
               ("tick_backfill", if ts < now_sec then 1 else 0)] })
    | _, _, _ => []

/-- One iteration of the `while True` body of `loop_logging_loop`, reduced
to its tick arithmetic and point assembly: if the whole second `now_sec`
has not yet reached `next_tick`, sleep and emit nothing; otherwise emit
points for every tick from `max(next_tick, now_sec - LOOP_MAX_BACKFILL_SECONDS + 1)`
through `now_sec` and advance `next_tick` to `now_sec + 1`.  Returns the
new points of the cycle and the updated `next_tick`. -/
def loop_cycle (readFn : String → ReadResult) (loops : List LoopAssignment)
    (next_tick now_sec : Nat) : List Point × Nat :=
  if now_sec < next_tick then ([], next_tick)
  else
    let backfill_from := max next_tick (now_sec + 1 - LOOP_MAX_BACKFILL_SECONDS)
    let tick_timestamps := List.range' backfill_from (now_sec + 1 - backfill_from)
    (loops.flatMap (fun loop =>
        points_for_loop readFn loop tick_timestamps now_sec),
      now_sec + 1)

/-- A run of consecutive cycles: one observed wall-clock second per cycle,
threading `next_tick`.  Returns the per-cycle point lists and the final
`next_tick`. -/
def run_cycles (readFn : String → ReadResult) (loops : List LoopAssignment)
    (next_tick : Nat) : List Nat → List (List Point) × Nat
  | [] => ([], next_tick)
  | now :: rest =>
      let c := loop_cycle readFn loops next_tick now
      let r := run_cycles readFn loops c.2 rest
      (c.1 :: r.1, r.2)

/-!
## Theorems
-/

/-- Claim C6: the freshness classification is the total function `null ↦ unknown`,
`age ≤ 5 ↦ live`, `5 < age ≤ 30 ↦ recent`, `age > 30 ↦ stale`, with the
stated boundary values. -/
theorem classify_total_spec :
    classify none = .unknown ∧
    (∀ a : Int, a ≤ 5 → classify (some a) = .live) ∧
    (∀ a : Int, 5 < a → a ≤ 30 → classify (some a) = .recent) ∧
    (∀ a : Int, 30 < a → classify (some a) = .stale) ∧
    classify (some 5) = .live ∧ classify (some 6) = .recent ∧
    classify (some 30) = .recent ∧ classify (some 31) = .stale := by
  refine ⟨rfl, ?_, ?_, ?_, by decide, by decide, by decide, by decide⟩
  · intro a h
    simp [classify, h]
  · intro a h1 h2
    simp only [classify]
    rw [if_neg (by omega), if_pos h2]
  · intro a h
    simp only [classify]
    rw [if_neg (by omega), if_neg (by omega)]

/-- Witness for C6 at age 3. -/
theorem classify_total_spec_witness : classify (some 3) = .live :=
  classify_total_spec.2.1 3 (by decide)

/-- Claim C5 counterexample: a point with `from_cache = 1` whose age classifies as
`stale` (age 31) keeps state `stale`; the override never turns `stale` into
`cached`. -/
theorem catalog_state_stale_cex :
    catalog_state (some 1) (some 31) = .stale ∧
    Freshness.stale ≠ Freshness.cached := by
  constructor
  · rfl
  · decide

/-- Claim C5 amended: with the diagnostic `from_cache` flag equal to 1, any
classification other than `stale` (so `live`, `recent` or `unknown`) is
overridden to `cached`, while `stale` is never overridden. -/
theorem catalog_state_cached_override (from_cache : Option Int)
    (age : Option Int) (hfc : from_cache.getD 0 = 1) :
    (classify age ≠ .stale → catalog_state from_cache age = .cached) ∧
    (classify age = .stale → catalog_state from_cache age = .stale) := by
  constructor
  · intro hns
    simp [catalog_state, apply_cached_override, hfc, hns]
  · intro hs
    simp [catalog_state, apply_cached_override, hs]

/-- Witness for C5 at `from_cache = 1`, age 6 (`recent` becomes `cached`). -/
theorem catalog_state_cached_override_witness :
    catalog_state (some 1) (some 6) = .cached :=
  (catalog_state_cached_override (some 1) (some 6) (by decide)).1 (by decide)

/-- Claim C4: the trim step never leaves more than `MAX_PENDING_POINTS` entries;
with `N > cap` it removes exactly `N - cap` points from the front, leaving
the last `cap` points; with `N ≤ cap` the buffer is unchanged. -/
theorem trim_pending_spec {α : Type} (pending : List α) :
    (trim_pending pending).length ≤ MAX_PENDING_POINTS ∧
    (pending.length > MAX_PENDING_POINTS →
      trim_pending pending = pending.drop (pending.length - MAX_PENDING_POINTS)) ∧
    (pending.length ≤ MAX_PENDING_POINTS → trim_pending pending = pending) := by
  unfold trim_pending
  by_cases h : pending.length > MAX_PENDING_POINTS
  · rw [if_pos h]
    refine ⟨?_, fun _ => rfl, fun hle => absurd h (by omega)⟩
    rw [List.length_drop]
    omega
  · rw [if_neg h]
    exact ⟨by omega, fun hgt => absurd hgt h, fun _ => rfl⟩

/-- Witness for C4 on a 3-element buffer (below the cap, unchanged). -/
theorem trim_pending_spec_witness :
    trim_pending [(1 : Nat), 2, 3] = [1, 2, 3] :=
  (trim_pending_spec [(1 : Nat), 2, 3]).2.2 (by decide)

/-- Claim C2: when the live read fails, a cache entry whose age is within
`max_age` is returned with `from_cache = true`, its age and the original
error; an over-age entry or an absent one yields `value = none` with the
error. -/
theorem read_cache_fallback (live : Except String OpcValue) (e : String)
    (nodeid : String) (cache : Cache) (now max_age : Nat)
    (hlive : live_attempt live = .error e) :
    (∀ entry, cache nodeid = some entry → now - entry.ts ≤ max_age →
      (read_numeric_with_cache live nodeid cache now max_age).1 =
        ⟨some entry.value, true, some (now - entry.ts), e⟩) ∧
    (∀ entry, cache nodeid = some entry → max_age < now - entry.ts →
      (read_numeric_with_cache live nodeid cache now max_age).1 =
        ⟨none, false, none, e⟩) ∧
    (cache nodeid = none →
      (read_numeric_with_cache live nodeid cache now max_age).1 =
        ⟨none, false, none, e⟩) := by
  refine ⟨?_, ?_, ?_⟩
  · intro entry hc hage
    simp [read_numeric_with_cache, hlive, hc, hage]
  · intro entry hc hage
    simp [read_numeric_with_cache, hlive, hc, Nat.not_le.mpr hage]
  · intro hc
    simp [read_numeric_with_cache, hlive, hc]

/-- A concrete one-entry cache for exercising the fallback path. -/
def demo_cache : Cache :=
  fun k => if k = "ns=2;s=Sim.PV" then some ⟨7, 10⟩ else none

/-- Witness for C2: live read fails, entry of age 2 within `max_age = 30`
is served from cache with the error attached. -/
theorem read_cache_fallback_witness :
    (read_numeric_with_cache (.error "opc down") "ns=2;s=Sim.PV"
        demo_cache 12 30).1 =
      ⟨some 7, true, some 2, "opc down"⟩ :=
  (read_cache_fallback (.error "opc down") "opc down" "ns=2;s=Sim.PV"
      demo_cache 12 30 rfl).1 ⟨7, 10⟩ rfl (by decide)

/-- Claim C8: the reader is a total function into the result 4-tuple (no
exception escapes), and every outcome is one of three shapes — fresh
success, cache fallback tagged with the live error, or failure carrying the
live error with `value = none`. -/
theorem read_numeric_with_cache_total (live : Except String OpcValue)
    (nodeid : String) (cache : Cache) (now max_age : Nat) :
    (∃ v, live_attempt live = .ok v ∧
      (read_numeric_with_cache live nodeid cache now max_age).1 =
        ⟨some v, false, some 0, ""⟩) ∨
    (∃ e, live_attempt live = .error e ∧
      ((∃ v a, a ≤ max_age ∧
        (read_numeric_with_cache live nodeid cache now max_age).1 =
          ⟨some v, true, some a, e⟩) ∨
      (read_numeric_with_cache live nodeid cache now max_age).1 =
        ⟨none, false, none, e⟩)) := by
  rcases hl : live_attempt live with e | v
  · refine Or.inr ⟨e, rfl, ?_⟩
    rcases hc : cache nodeid with _ | entry
    · exact Or.inr (by simp [read_numeric_with_cache, hl, hc])
    · by_cases hage : now - entry.ts ≤ max_age
      · exact Or.inl ⟨entry.value, now - entry.ts, hage,
          by simp [read_numeric_with_cache, hl, hc, hage]⟩
      · exact Or.inr (by simp [read_numeric_with_cache, hl, hc, hage])
  · exact Or.inl ⟨v, rfl, by simp [read_numeric_with_cache, hl]⟩

/-!
### Run-state invariant (C7)
-/

/-- A loop kind's state is drained when it has exactly one live task while
its flag is set and none otherwise. -/
def drained (st : LoggerState) : Prop :=
  st.active_tasks = if st.running then 1 else 0

theorem drained_start (st : LoggerState) (h : drained st) :
    drained (logger_step .start st) := by
  by_cases hr : st.running
  · simpa [logger_step, api_logging_start, hr] using h
  · simp only [drained, hr, if_false] at h
    simp [logger_step, api_logging_start, hr, drained, h]

theorem drained_check (st : LoggerState) (h : drained st) :
    drained (logger_step .check st) := by
  by_cases hr : st.running
  · simpa [logger_step, hr] using h
  · simp only [drained, hr, if_false] at h
    simp [logger_step, hr, drained, h]

theorem drained_stop_check (st : LoggerState) (h : drained st) :
    drained (logger_step .check (logger_step .stop st)) := by
  by_cases hr : st.running <;>
    simp only [drained, hr, if_true, if_false] at h <;>
    simp [logger_step, api_logging_stop, drained, h]

theorem drained_run_landed (ops : List LoggerOp) (hops : Landed ops) :
    ∀ st : LoggerState, drained st → drained (run_logger_ops ops st) := by
  induction hops with
  | nil => exact fun st h => h
  | start _ ih => exact fun st h => ih _ (drained_start st h)
  | check _ ih => exact fun st h => ih _ (drained_check st h)
  | stop _ ih => exact fun st h => ih _ (drained_stop_check st h)

/-- Claim C7 counterexample: a sequence of start and stop calls alone —
start, stop, then start again before the stopped thread's next flag check —
leaves two live background tasks of the same kind (the old thread
re-observes a true flag and keeps running), refuting the claimed
at-most-one-task invariant over every start/stop sequence. -/
theorem logging_stop_start_race_cex :
    (run_logger_ops [.start, .stop, .start] LoggerState.init).active_tasks = 2 ∧
    ¬ (run_logger_ops [.start, .stop, .start] LoggerState.init).active_tasks ≤ 1 := by
  decide

/-- Claim C7 amended: `start` on an already-running loop kind (either kind)
returns the status message and leaves the state untouched — no second task
is spawned and a task is only ever spawned by a start that saw the flag
false; `stop` only clears the flag and leaves every live task running until
its own next flag check; and along every event sequence from the initial
state in which each stop's cooperative exit lands (the stopped thread
observes the cleared flag) before the next event, at most one background
task per kind is live — exactly one while the flag is set, none otherwise. -/
theorem logging_start_idempotent :
    (∀ st : LoggerState, st.running = true →
      api_raw_logging_start st = (st, "Raw tag logging already running.") ∧
      api_loop_logging_start st = (st, "Loop logging already running.")) ∧
    (∀ msg st, api_logging_stop msg st = (⟨false, st.active_tasks⟩, msg)) ∧
    (∀ ops : List LoggerOp, Landed ops →
      (run_logger_ops ops LoggerState.init).active_tasks =
        (if (run_logger_ops ops LoggerState.init).running then 1 else 0)) ∧
    (∀ ops : List LoggerOp, Landed ops →
      (run_logger_ops ops LoggerState.init).active_tasks ≤ 1) := by
  have hinv : ∀ ops : List LoggerOp, Landed ops →
      drained (run_logger_ops ops LoggerState.init) :=
    fun ops hops => drained_run_landed ops hops LoggerState.init
      (by simp [drained, LoggerState.init])
  refine ⟨?_, fun msg st => rfl, hinv, ?_⟩
  · intro st h
    constructor <;>
      simp [api_raw_logging_start, api_loop_logging_start, api_logging_start, h]
  · intro ops hops
    have := hinv ops hops
    rw [drained] at this
    rw [this]
    split <;> omega

/-- Witness for C7: a start on a running state is a no-op, and after
start, stop, the thread's flag check and a fresh start, exactly one task is
live. -/
theorem logging_start_idempotent_witness :
    api_raw_logging_start ⟨true, 1⟩ =
      (⟨true, 1⟩, "Raw tag logging already running.") ∧
    (run_logger_ops [.start, .stop, .check, .start]
        LoggerState.init).active_tasks ≤ 1 :=
  ⟨(logging_start_idempotent.1 ⟨true, 1⟩ rfl).1,
   logging_start_idempotent.2.2.2 [.start, .stop, .check, .start]
     (Landed.start (Landed.stop (Landed.start Landed.nil)))⟩

/-!
### BatchWriter characterization (C3)
-/

theorem wpp_core {α : Type} (sink : Nat → Bool) (err : Nat → String) :
    ∀ (n : Nat) (pending : List α), pending.length ≤ n → ∀ (a : Nat),
    (write_pending_points sink err a pending).2.2 =
      pending.drop (write_pending_points sink err a pending).1 ∧
    (write_pending_points sink err a pending).1 ≤ pending.length ∧
    ((write_pending_points sink err a pending).2.2 ≠ [] →
      sink (a + (write_pending_points sink err a pending).1 / WRITE_BATCH_SIZE)
          = false ∧
      (write_pending_points sink err a pending).2.1 =
        err (a + (write_pending_points sink err a pending).1 / WRITE_BATCH_SIZE) ∧
      (write_pending_points sink err a pending).1 % WRITE_BATCH_SIZE = 0) := by
  intro n
  induction n with
  | zero =>
      intro pending hlen a
      have : pending = [] := List.length_eq_zero.mp (Nat.le_zero.mp hlen)
      subst this
      simp [write_pending_points]
  | succ m ih =>
      intro pending hlen a
      match pending with
      | [] => simp [write_pending_points]
      | p :: ps =>
          rcases hs : sink a with _ | _
          · rw [write_pending_points]
            simp only [hs, if_false]
            refine ⟨rfl, by simp, fun _ => ⟨?_, ?_, ?_⟩⟩ <;> simp [hs]
          · rw [write_pending_points]
            simp only [hs, if_true]
            have hrest : ((p :: ps).drop WRITE_BATCH_SIZE).length ≤ m := by
              simp only [List.length_drop, List.length_cons] at *
              simp only [WRITE_BATCH_SIZE] at *
              omega
            obtain ⟨ihq, ihle, ihfail⟩ := ih ((p :: ps).drop WRITE_BATCH_SIZE) hrest (a + 1)
            set r := write_pending_points sink err (a + 1) ((p :: ps).drop WRITE_BATCH_SIZE)
              with hr
            by_cases hshort : (p :: ps).length ≤ WRITE_BATCH_SIZE
            · -- the batch is the whole queue; the recursive call sees []
              have hnil : (p :: ps).drop WRITE_BATCH_SIZE = [] :=
                List.drop_eq_nil_of_le hshort
              have hrval : r = (0, "", []) := by
                rw [hr, hnil, write_pending_points]
              rw [hrval]
              simp only [List.length_take]
              refine ⟨?_, ?_, ?_⟩
              · rw [List.drop_eq_nil_of_le]
                omega
              · omega
              · intro hne
                exact absurd rfl hne
            · -- a full batch was written; compose with the recursive call
              have hbatch : ((p :: ps).take WRITE_BATCH_SIZE).length = WRITE_BATCH_SIZE := by
                rw [List.length_take]
                omega
              refine ⟨?_, ?_, ?_⟩
              · rw [ihq, List.drop_drop, hbatch]
              · rw [hbatch]
                simp only [List.length_drop] at ihle
                omega
              · intro hne
                obtain ⟨hsf, herr, hmod⟩ := ihfail hne
                have hB : 0 < WRITE_BATCH_SIZE := by norm_num [WRITE_BATCH_SIZE]
                have hdiv : (((p :: ps).take WRITE_BATCH_SIZE).length + r.1)
                    / WRITE_BATCH_SIZE = r.1 / WRITE_BATCH_SIZE + 1 := by
                  rw [hbatch, Nat.add_comm, Nat.add_div_right _ hB]
                refine ⟨?_, ?_, ?_⟩
                · rw [hdiv]
                  rw [show a + (r.1 / WRITE_BATCH_SIZE + 1) =
                    a + 1 + r.1 / WRITE_BATCH_SIZE by omega]
                  exact hsf
                · rw [hdiv]
                  rw [show a + (r.1 / WRITE_BATCH_SIZE + 1) =
                    a + 1 + r.1 / WRITE_BATCH_SIZE by omega]
                  exact herr
                · rw [hbatch, Nat.add_comm, Nat.add_mod_right]
                  exact hmod

theorem wpp_all_fail {α : Type} (sink : Nat → Bool) (err : Nat → String)
    (pending : List α) (hfail : ∀ i, sink i = false) (hne : pending ≠ []) :
    write_pending_points sink err 0 pending = (0, err 0, pending) := by
  match pending with
  | [] => exact absurd rfl hne
  | p :: ps =>
      rw [write_pending_points]
      simp [hfail 0]

/-- Claim C3: a flush removes exactly the written prefix (the remaining queue is
the original queue with the first `written_count` points dropped, in
order), `written_count` counts the removed points, a flush that ends with a
nonempty queue stopped at the first failed write — after a whole number of
full batches — and returns that write's error, and with an always-failing
sink the queue is returned exactly unchanged with nothing written. -/
theorem write_pending_points_ok {α : Type} (sink : Nat → Bool)
    (err : Nat → String) (pending : List α) :
    (write_pending_points sink err 0 pending).2.2 =
      pending.drop (write_pending_points sink err 0 pending).1 ∧
    (write_pending_points sink err 0 pending).1 =
      pending.length - (write_pending_points sink err 0 pending).2.2.length ∧
    ((write_pending_points sink err 0 pending).2.2 ≠ [] →
      sink ((write_pending_points sink err 0 pending).1 / WRITE_BATCH_SIZE)
          = false ∧
      (write_pending_points sink err 0 pending).2.1 =
        err ((write_pending_points sink err 0 pending).1 / WRITE_BATCH_SIZE) ∧
      (write_pending_points sink err 0 pending).1 % WRITE_BATCH_SIZE = 0) ∧
    ((∀ i, sink i = false) → pending ≠ [] →
      write_pending_points sink err 0 pending = (0, err 0, pending)) := by
  obtain ⟨hq, hle, hfail⟩ := wpp_core sink err pending.length pending le_rfl 0
  refine ⟨hq, ?_, ?_, wpp_all_fail sink err pending⟩
  · rw [hq, List.length_drop]
    omega
  · intro hne
    simpa using hfail hne

/-- Witness for C3: a three-point queue against an always-failing sink is
returned unchanged with the first write's error and zero written. -/
theorem write_pending_points_ok_witness :
    write_pending_points (fun _ => false) (fun _ => "influx down") 0
        [(1 : Nat), 2, 3] = (0, "influx down", [1, 2, 3]) :=
  (write_pending_points_ok (fun _ => false) (fun _ => "influx down")
      [(1 : Nat), 2, 3]).2.2.2 (fun _ => rfl) (by decide)

/-!
### Loop/PID cycle lemmas (C9, C1, C10)
-/

theorem points_for_loop_nil_of_skip (readFn : String → ReadResult)
    (loop : LoopAssignment)
    (h : loop.pv_nodeid = "" ∨ loop.sp_nodeid = "" ∨ loop.co_nodeid = "" ∨
      (readFn loop.pv_nodeid).value = none ∨
      (readFn loop.sp_nodeid).value = none ∨
      (readFn loop.co_nodeid).value = none)
    (ticks : List Nat) (now_sec : Nat) :
    points_for_loop readFn loop ticks now_sec = [] := by
  by_cases hid : loop.loop_id = "" ∨ loop.pv_nodeid = "" ∨ loop.sp_nodeid = "" ∨
      loop.co_nodeid = ""
  · simp only [points_for_loop, if_pos hid]
  · have hids := hid
    push_neg at hids
    rcases hpv : (readFn loop.pv_nodeid).value with _ | pv <;>
      rcases hsp : (readFn loop.sp_nodeid).value with _ | sp <;>
      rcases hco : (readFn loop.co_nodeid).value with _ | co <;>
      simp only [points_for_loop, if_neg hid, hpv, hsp, hco]
    exfalso
    rcases h with h | h | h | h | h | h
    · exact hids.2.1 h
    · exact hids.2.2.1 h
    · exact hids.2.2.2 h
    · rw [hpv] at h
      exact Option.noConfusion h
    · rw [hsp] at h
      exact Option.noConfusion h
    · rw [hco] at h
      exact Option.noConfusion h

/-- Claim C9: if any of the three sub-reads of a configured loop yields no value
(empty node id, or live read and cache fallback both failed, signalled by
`value = none`), no point is emitted for that loop this cycle: the per-loop
point list is empty at every tick set, and a cycle over that loop alone
emits nothing — the omission is silent. -/
theorem loop_triple_skipped (readFn : String → ReadResult)
    (loop : LoopAssignment)
    (h : loop.pv_nodeid = "" ∨ loop.sp_nodeid = "" ∨ loop.co_nodeid = "" ∨
      (readFn loop.pv_nodeid).value = none ∨
      (readFn loop.sp_nodeid).value = none ∨
      (readFn loop.co_nodeid).value = none) :
    (∀ (ticks : List Nat) (now_sec : Nat),
      points_for_loop readFn loop ticks now_sec = []) ∧
    (∀ (next_tick now_sec : Nat),
      (loop_cycle readFn [loop] next_tick now_sec).1 = []) := by
  refine ⟨points_for_loop_nil_of_skip readFn loop h, ?_⟩
  intro next_tick now_sec
  unfold loop_cycle
  by_cases hlt : now_sec < next_tick
  · rw [if_pos hlt]
  · rw [if_neg hlt]
    simp [points_for_loop_nil_of_skip readFn loop h]

/-- A read function whose node `pv` is dead with no cache, all other nodes
live. -/
def failing_read : String → ReadResult :=
  fun n => if n = "pv" then ⟨none, false, none, "opc down"⟩
    else ⟨some 1, false, some 0, ""⟩

/-- A fully-configured loop assignment used as a concrete input. -/
def demo_loop : LoopAssignment := ⟨"L1", "M1", "pv", "sp", "co"⟩

/-- Witness for C9: with the process-value read failing outright, the loop's
triple is skipped for the tick. -/
theorem loop_triple_skipped_witness :
    points_for_loop failing_read demo_loop [5] 5 = [] :=
  (loop_triple_skipped failing_read demo_loop
      (Or.inr (Or.inr (Or.inr (Or.inl rfl))))).1 [5] 5

/-- Claim C1 amended: with `next_tick = T`, wall time `T + k` and
`k < MAX_BACKFILL_SECONDS` (one less than the claim's bound; at
`k = MAX_BACKFILL_SECONDS` the cap already cuts the oldest tick), a loop
whose three reads succeed gets exactly `k + 1` points with timestamps
`T .. T+k`, `tick_backfill = 0` exactly at `T + k` and `1` strictly before
it, and the cycle advances `next_tick` to `T + k + 1`. -/
theorem loop_backfill_amended (readFn : String → ReadResult)
    (loop : LoopAssignment) (T k : Nat) (pv sp co : ℚ)
    (hk : k < LOOP_MAX_BACKFILL_SECONDS)
    (hl : loop.loop_id ≠ "")
    (hpvn : loop.pv_nodeid ≠ "") (hspn : loop.sp_nodeid ≠ "")
    (hcon : loop.co_nodeid ≠ "")
    (hpv : (readFn loop.pv_nodeid).value = some pv)
    (hsp : (readFn loop.sp_nodeid).value = some sp)
    (hco : (readFn loop.co_nodeid).value = some co) :
    (loop_cycle readFn [loop] T (T + k)).1.length = k + 1 ∧
    (loop_cycle readFn [loop] T (T + k)).1.map Point.time =
      List.range' T (k + 1) ∧
    (∀ p ∈ (loop_cycle readFn [loop] T (T + k)).1,
      p.field "tick_backfill" = some (if p.time < T + k then 1 else 0)) ∧
    (loop_cycle readFn [loop] T (T + k)).2 = T + k + 1 := by
  have hnotlt : ¬ T + k < T := by omega
  have hmax : max T (T + k + 1 - LOOP_MAX_BACKFILL_SECONDS) = T := by
    apply Nat.max_eq_left
    simp only [LOOP_MAX_BACKFILL_SECONDS] at *
    omega
  have hlen : T + k + 1 - T = k + 1 := by omega
  have hid : ¬ (loop.loop_id = "" ∨ loop.pv_nodeid = "" ∨ loop.sp_nodeid = "" ∨
      loop.co_nodeid = "") := by
    push_neg
    exact ⟨hl, hpvn, hspn, hcon⟩
  have hcycle : (loop_cycle readFn [loop] T (T + k)).1 =
      (List.range' T (k + 1)).map (fun ts =>
        { measurement := RAW_LOOP_MEASUREMENT
          tags := [("loop_id", loop.loop_id),
            ("machine_id",
              if loop.machine_id = "" then "Kepware" else loop.machine_id)]
          time := ts
          fields :=
            [("PV", pv), ("SP", sp), ("CO", co),
             ("PV_from_cache", bool_field (readFn loop.pv_nodeid).from_cache),
             ("SP_from_cache", bool_field (readFn loop.sp_nodeid).from_cache),
             ("CO_from_cache", bool_field (readFn loop.co_nodeid).from_cache),
             ("PV_cache_age_s", ((readFn loop.pv_nodeid).cache_age.getD 0 : Nat)),
             ("SP_cache_age_s", ((readFn loop.sp_nodeid).cache_age.getD 0 : Nat)),
             ("CO_cache_age_s", ((readFn loop.co_nodeid).cache_age.getD 0 : Nat)),
             ("tick_backfill", if ts < T + k then 1 else 0)] } : Nat → Point) := by
    unfold loop_cycle
    rw [if_neg hnotlt]
    simp only [hmax, hlen, List.flatMap_cons, List.flatMap_nil, List.append_nil]
    simp only [points_for_loop, if_neg hid, hpv, hsp, hco]
  refine ⟨?_, ?_, ?_, ?_⟩
  · rw [hcycle, List.length_map, List.length_range']
  · rw [hcycle, List.map_map]
    exact List.map_id _
  · intro p hp
    rw [hcycle] at hp
    obtain ⟨ts, _, rfl⟩ := List.mem_map.mp hp
    rfl
  · unfold loop_cycle
    rw [if_neg hnotlt]

/-- The always-succeeding read function used as a concrete input. -/
def demo_read : String → ReadResult := fun _ => ⟨some 1, false, some 0, ""⟩

/-- Claim C1 counterexample: at `T = 0` and `k = MAX_BACKFILL_SECONDS = 10` (the
claim's bound allows `k = 10`), the cycle emits 10 points with timestamps
`1 .. 10` — not the claimed `k + 1 = 11` points with timestamps `0 .. 10`;
the tick at `T = 0` is cut by the backfill cap. -/
theorem loop_backfill_cex :
    (loop_cycle demo_read [demo_loop] 0 10).1.length = 10 ∧
    (loop_cycle demo_read [demo_loop] 0 10).1.map Point.time =
      List.range' 1 10 ∧
    (10 : Nat) ≠ 10 + 1 := by
  refine ⟨?_, ?_, by decide⟩
  · rfl
  · rfl

/-- Witness for C1 at `T = 100`, `k = 2`: three points, timestamps
`100, 101, 102`. -/
theorem loop_backfill_amended_witness :
    (loop_cycle demo_read [demo_loop] 100 102).1.length = 2 + 1 :=
  (loop_backfill_amended demo_read demo_loop 100 2 1 1 1 (by decide)
      (by decide) (by decide) (by decide) (by decide) rfl rfl rfl).1

theorem points_for_loop_time_mem (readFn : String → ReadResult)
    (loop : LoopAssignment) (ticks : List Nat) (now_sec : Nat)
    (p : Point) (hp : p ∈ points_for_loop readFn loop ticks now_sec) :
    p.time ∈ ticks := by
  by_cases hid : loop.loop_id = "" ∨ loop.pv_nodeid = "" ∨ loop.sp_nodeid = "" ∨
      loop.co_nodeid = ""
  · rw [points_for_loop, if_pos hid] at hp
    exact absurd hp (List.not_mem_nil p)
  · rcases hpv : (readFn loop.pv_nodeid).value with _ | pv <;>
      rcases hsp : (readFn loop.sp_nodeid).value with _ | sp <;>
      rcases hco : (readFn loop.co_nodeid).value with _ | co <;>
      simp only [points_for_loop, if_neg hid, hpv, hsp, hco] at hp <;>
      try exact absurd hp (List.not_mem_nil p)
    obtain ⟨ts, hts, rfl⟩ := List.mem_map.mp hp
    exact hts

theorem loop_cycle_time_bounds (readFn : String → ReadResult)
    (loops : List LoopAssignment) (next_tick now_sec : Nat) (p : Point)
    (hp : p ∈ (loop_cycle readFn loops next_tick now_sec).1) :
    max next_tick (now_sec + 1 - LOOP_MAX_BACKFILL_SECONDS) ≤ p.time ∧
    p.time ≤ now_sec := by
  unfold loop_cycle at hp
  by_cases hlt : now_sec < next_tick
  · rw [if_pos hlt] at hp
    exact absurd hp (List.not_mem_nil p)
  · rw [if_neg hlt] at hp
    simp only [List.mem_flatMap] at hp
    obtain ⟨loop, _, hmem⟩ := hp
    have htick := points_for_loop_time_mem readFn loop _ now_sec p hmem
    rw [List.mem_range'_1] at htick
    obtain ⟨h1, h2⟩ := htick
    refine ⟨h1, ?_⟩
    omega

theorem loop_cycle_next_tick_le (readFn : String → ReadResult)
    (loops : List LoopAssignment) (next_tick now_sec : Nat) :
    next_tick ≤ (loop_cycle readFn loops next_tick now_sec).2 := by
  unfold loop_cycle
  by_cases hlt : now_sec < next_tick
  · rw [if_pos hlt]
  · rw [if_neg hlt]
    show next_tick ≤ now_sec + 1
    omega

theorem loop_cycle_time_lt_next (readFn : String → ReadResult)
    (loops : List LoopAssignment) (next_tick now_sec : Nat) (p : Point)
    (hp : p ∈ (loop_cycle readFn loops next_tick now_sec).1) :
    p.time < (loop_cycle readFn loops next_tick now_sec).2 := by
  have hb := loop_cycle_time_bounds readFn loops next_tick now_sec p hp
  unfold loop_cycle at hp ⊢
  by_cases hlt : now_sec < next_tick
  · rw [if_pos hlt] at hp
    exact absurd hp (List.not_mem_nil p)
  · rw [if_neg hlt]
    show p.time < now_sec + 1
    have := hb.2
    omega

theorem run_cycles_time_lower (readFn : String → ReadResult)
    (loops : List LoopAssignment) (nows : List Nat) :
    ∀ (next_tick : Nat),
      ∀ cyc ∈ (run_cycles readFn loops next_tick nows).1,
      ∀ p ∈ cyc, next_tick ≤ p.time := by
  induction nows with
  | nil =>
      intro next_tick cyc hcyc
      exact absurd hcyc (List.not_mem_nil cyc)
  | cons now rest ih =>
      intro next_tick cyc hcyc p hp
      simp only [run_cycles, List.mem_cons] at hcyc
      rcases hcyc with rfl | hcyc
      · have hb := loop_cycle_time_bounds readFn loops next_tick now p hp
        calc next_tick ≤ max next_tick (now + 1 - LOOP_MAX_BACKFILL_SECONDS) :=
              le_max_left _ _
          _ ≤ p.time := hb.1
      · have := ih (loop_cycle readFn loops next_tick now).2 cyc hcyc p hp
        calc next_tick ≤ (loop_cycle readFn loops next_tick now).2 :=
              loop_cycle_next_tick_le readFn loops next_tick now
          _ ≤ p.time := this

/-- Claim C10: across any run of cycles, the emitted tick timestamps are strictly
increasing from each cycle to every later one (so the per-cycle timestamp
sets are pairwise disjoint and no tick is emitted twice), and each single
cycle emits timestamps only inside
`[max(next_tick, now_sec - MAX_BACKFILL_SECONDS + 1), now_sec]`. -/
theorem loop_ticks_disjoint (readFn : String → ReadResult)
    (loops : List LoopAssignment) (next_tick : Nat) (nows : List Nat) :
    List.Pairwise (fun c1 c2 => ∀ p ∈ c1, ∀ q ∈ c2, p.time < q.time)
      (run_cycles readFn loops next_tick nows).1 ∧
    (∀ (t now_sec : Nat), ∀ p ∈ (loop_cycle readFn loops t now_sec).1,
      max t (now_sec + 1 - LOOP_MAX_BACKFILL_SECONDS) ≤ p.time ∧
      p.time ≤ now_sec) := by
  refine ⟨?_, fun t now_sec p hp => loop_cycle_time_bounds readFn loops t now_sec p hp⟩
  induction nows generalizing next_tick with
  | nil => exact List.Pairwise.nil
  | cons now rest ih =>
      simp only [run_cycles]
      rw [List.pairwise_cons]
      constructor
      · intro cyc hcyc p hp q hq
        have h1 : p.time < (loop_cycle readFn loops next_tick now).2 :=
          loop_cycle_time_lt_next readFn loops next_tick now p hp
        have h2 : (loop_cycle readFn loops next_tick now).2 ≤ q.time :=
          run_cycles_time_lower readFn loops rest
            (loop_cycle readFn loops next_tick now).2 cyc hcyc q hq
        omega
      · exact ih (loop_cycle readFn loops next_tick now).2

/-- The single point emitted by `demo_read`/`demo_loop` at tick 0. -/
def demo_point : Point :=
  { measurement := RAW_LOOP_MEASUREMENT
    tags := [("loop_id", "L1"), ("machine_id", "M1")]
    time := 0
    fields :=
      [("PV", 1), ("SP", 1), ("CO", 1),
       ("PV_from_cache", 0), ("SP_from_cache", 0), ("CO_from_cache", 0),
       ("PV_cache_age_s", 0), ("SP_cache_age_s", 0), ("CO_cache_age_s", 0),
       ("tick_backfill", 0)] }

/-- Witness for C10: the point emitted by the cycle at `next_tick = 0`,
`now_sec = 0` lies inside the allowed tick interval. -/
theorem loop_ticks_disjoint_witness :
    max 0 (0 + 1 - LOOP_MAX_BACKFILL_SECONDS) ≤ demo_point.time ∧
    demo_point.time ≤ 0 :=
  (loop_ticks_disjoint demo_read [demo_loop] 0 []).2 0 0 demo_point (by decide)

end Historian
